import Mathlib

/-!
Shallow embedding of the AI response orchestration pipeline of the
ChatBot repository (src/config.py, src/cogs/chat.py, src/web_server.py),
together with theorems about conversation-history storage, prompt-context
assembly, provider dispatch, response chunking and error handling.

Text is modelled as `List Char`; Python machine behaviour (str.strip,
str.lower, truthiness of strings, negative slicing, re.split of the
sentence-boundary pattern) is embedded explicitly.
-/

namespace ChatBot

/-- Whitespace characters recognised by Python str.strip and the regex
class backslash-s (space, tab, newline, carriage return, vertical tab,
form feed). -/
def isWS (c : Char) : Bool :=
  c = ' ' || c = '\t' || c = '\n' || c = '\r' || c = '\x0b' || c = '\x0c'

/-- Removal of trailing whitespace (the right half of Python str.strip). -/
def trimEnd (s : List Char) : List Char :=
  (s.reverse.dropWhile isWS).reverse

/-- Python str.strip(): remove leading and trailing whitespace. -/
def pyStrip (s : List Char) : List Char :=
  (trimEnd s).dropWhile isWS

/-- Sentence-terminating characters of the chunking regex in
`ChatCog._format_response` (src/cogs/chat.py). -/
def isSentEnd (c : Char) : Bool :=
  c = '.' || c = '!' || c = '?'

/-- Does the current (reversed) token end, at its scanned position, with a
sentence terminator? This is the lookbehind of the splitting regex. -/
def boundaryHead (cur : List Char) : Bool :=
  match cur with
  | p :: _ => isSentEnd p
  | [] => false

/-- Worker for `splitSentences`: scans the text one character at a time,
accumulating the current token in reverse. The Bool flag records whether
the scanner is inside a separator whitespace run (a maximal whitespace run
whose preceding character is a sentence terminator); such a run is
consumed and closes the current token. -/
def splitSentencesAux : Bool → List Char → List Char → List (List Char)
  | _, [], cur => [cur.reverse]
  | true, c :: rest, cur =>
    if isWS c then splitSentencesAux true rest cur
    else splitSentencesAux false rest (c :: cur)
  | false, c :: rest, cur =>
    if isWS c && boundaryHead cur then
      cur.reverse :: splitSentencesAux true rest []
    else
      splitSentencesAux false rest (c :: cur)

/-- Embedding of `re.split(r'(?<=[.!?])\s+', response)` from
`ChatCog._format_response` (src/cogs/chat.py line 198). -/
def splitSentences (text : List Char) : List (List Char) :=
  splitSentencesAux false text []

/-- Embedding of the greedy packing loop of `ChatCog._format_response`
(src/cogs/chat.py lines 200-214): `parts` is the list built so far,
`cur` is `current_part`. -/
def formatResponseGo (maxLen : Nat) :
    List (List Char) → List (List Char) → List Char → List (List Char)
  | [], parts, cur => if cur ≠ [] then parts ++ [pyStrip cur] else parts
  | s :: rest, parts, cur =>
    if cur.length + s.length + 1 ≤ maxLen then
      formatResponseGo maxLen rest parts (cur ++ pyStrip (s ++ [' ']))
    else
      formatResponseGo maxLen rest
        (if cur ≠ [] then parts ++ [pyStrip cur] else parts) (s ++ [' '])

/-- Embedding of `ChatCog._format_response` (src/cogs/chat.py lines
185-217), with the Discord limit `self.max_message_length` as the
parameter `maxLen` (2000 in the code). -/
def formatResponse (maxLen : Nat) (response : List Char) : List (List Char) :=
  if response.length ≤ maxLen then [response]
  else formatResponseGo maxLen (splitSentences response) [] []




/-- Joining chunks with single spaces (the reassembly used to compare the
chunker output with the original text). -/
def joinSpace : List (List Char) → List Char
  | [] => []
  | [s] => s
  | s :: rest => s ++ ' ' :: joinSpace rest

/-- Every non-whitespace character of a text, in order. -/
def removeWS (s : List Char) : List Char :=
  s.filter (fun c => !isWS c)

/-- Splitting a text into maximal whitespace-free words (used to state
whitespace normalization). -/
def splitWordsAux : List Char → List Char → List (List Char)
  | [], cur => if cur = [] then [] else [cur.reverse]
  | c :: rest, cur =>
    if isWS c then
      if cur = [] then splitWordsAux rest []
      else cur.reverse :: splitWordsAux rest []
    else splitWordsAux rest (c :: cur)

/-- Whitespace normalization: collapse every whitespace run to a single
space and drop surrounding whitespace. -/
def normWS (s : List Char) : List Char :=
  joinSpace (splitWordsAux s [])

/-- A conversation entry: a role string and a content text. Matches the
dictionaries stored in `conversation_history` in both front ends. -/
structure Msg where
  role : String
  content : List Char
deriving DecidableEq, Repr

/-- The fixed `self.max_history_length` of `ChatCog.__init__`
(src/cogs/chat.py line 35). -/
def maxHistoryLength : Nat := 10

/-- Embedding of `ChatCog._update_conversation_history` (src/cogs/chat.py
lines 163-183): extend by one user entry and one assistant entry, then
trim to the last `maxHist * 2` entries when longer. -/
def updateConversationHistory (maxHist : Nat) (history : List Msg)
    (userMessage aiResponse : List Char) : List Msg :=
  let h := history ++ [⟨"user", userMessage⟩, ⟨"assistant", aiResponse⟩]
  if maxHist * 2 < h.length then h.drop (h.length - maxHist * 2) else h

/-- A sequence of exchanges appended through the bot cog, starting from
the empty history of a fresh user. -/
def runAppends (maxHist : Nat) (xs : List (List Char × List Char)) : List Msg :=
  xs.foldl (fun h p => updateConversationHistory maxHist h p.1 p.2) []

/-- The untrimmed conversation: one user and one assistant entry per
exchange, in insertion order. -/
def fullHistory (xs : List (List Char × List Char)) : List Msg :=
  (xs.map (fun p => [Msg.mk "user" p.1, Msg.mk "assistant" p.2])).flatten

/-- System prompt of `ChatCog._build_conversation_context`
(src/cogs/chat.py lines 144-149). -/
def systemPromptBot : List Char :=
  "You are a helpful AI assistant in a Discord server. Be concise, friendly, and helpful. Keep responses under 2000 characters when possible.".data

/-- Embedding of `ChatCog._build_conversation_context` (src/cogs/chat.py
lines 132-161): system entry, then the stored history, then the current
message as a user entry. -/
def buildConversationContext (history : List Msg) (currentMessage : List Char) : List Msg :=
  ⟨"system", systemPromptBot⟩ :: history ++ [⟨"user", currentMessage⟩]

/-- System prompt of `_build_messages` (src/web_server.py lines 212-219). -/
def systemPromptWeb : List Char :=
  "You are a helpful AI assistant in a Discord/web app. Be concise, friendly, and accurate.".data

/-- Role mapping of `_build_messages` (src/web_server.py line 223): the
web store stores assistant entries under role ai. -/
def normalizeWebRole (r : String) : String :=
  if r = "ai" then "assistant" else r

/-- Embedding of `_build_messages` (src/web_server.py lines 210-229):
system entry, then the last 20 stored entries of nonempty content with
roles normalized, then the current message as a user entry. -/
def buildMessages (history : List Msg) (currentMessage : List Char) : List Msg :=
  let recent := history.drop (history.length - 20)
  let mid := (recent.filter (fun item => item.content ≠ [])).map
    (fun item => Msg.mk (normalizeWebRole item.role) item.content)
  ⟨"system", systemPromptWeb⟩ :: mid ++ [⟨"user", currentMessage⟩]

/-- Model of Python str.lower restricted to the letters it moves. -/
def pyLowerChar (c : Char) : Char :=
  if c = 'A' then 'a' else if c = 'B' then 'b' else if c = 'C' then 'c'
  else if c = 'D' then 'd' else if c = 'E' then 'e' else if c = 'F' then 'f'
  else if c = 'G' then 'g' else if c = 'H' then 'h' else if c = 'I' then 'i'
  else if c = 'J' then 'j' else if c = 'K' then 'k' else if c = 'L' then 'l'
  else if c = 'M' then 'm' else if c = 'N' then 'n' else if c = 'O' then 'o'
  else if c = 'P' then 'p' else if c = 'Q' then 'q' else if c = 'R' then 'r'
  else if c = 'S' then 's' else if c = 'T' then 't' else if c = 'U' then 'u'
  else if c = 'V' then 'v' else if c = 'W' then 'w' else if c = 'X' then 'x'
  else if c = 'Y' then 'y' else if c = 'Z' then 'z' else c

/-- Python str.lower over a text. -/
def pyLower (s : List Char) : List Char :=
  s.map pyLowerChar

/-- Embedding of the AI_PROVIDER initialisation of `Config.__init__`
(src/config.py line 33): default on an unset or empty variable, then
strip and lowercase. -/
def aiProviderInit (env : Option (List Char)) : List Char :=
  let v := match env with
    | none => "openai".data
    | some s => if s = [] then "openai".data else s
  pyLower (pyStrip v)

/-- Embedding of the provider normalisation of `Config._validate_config`
(src/config.py lines 52-55): any identifier other than the two known ones
falls back to openai. -/
def validateProvider (p : List Char) : List Char :=
  if p = "openai".data || p = "gemini".data then p else "openai".data

/-- The provider identifier after construction of the Config object. -/
def aiProvider (env : Option (List Char)) : List Char :=
  validateProvider (aiProviderInit env)

/-- Allow-list `valid_openai_models` of `Config._validate_config`
(src/config.py lines 63-66). -/
def validOpenaiModels : List (List Char) :=
  ["gpt-4o-mini", "gpt-4o", "gpt-4.1-mini", "gpt-4.1",
   "gpt-4", "gpt-4-turbo", "gpt-3.5-turbo", "gpt-3.5-turbo-16k"].map String.data

/-- Allow-list `valid_gemini_models` of `Config._validate_config`
(src/config.py lines 77-79). -/
def validGeminiModels : List (List Char) :=
  ["gemini-2.5-flash", "gemini-1.5-flash", "gemini-1.5-pro",
   "gemini-1.0-pro", "gemini-1.5-flash-8b"].map String.data

/-- OpenAI model selection of Config: environment value with default,
validated against the allow-list with fallback (src/config.py lines 37
and 67-69). -/
def openaiModel (env : Option (List Char)) : List Char :=
  let m := match env with
    | none => "gpt-4o-mini".data
    | some s => s
  if m ∈ validOpenaiModels then m else "gpt-4o-mini".data

/-- Gemini model selection of Config: environment value with default,
validated against the allow-list with fallback (src/config.py lines 41
and 80-82). -/
def geminiModel (env : Option (List Char)) : List Char :=
  let m := match env with
    | none => "gemini-1.5-flash".data
    | some s => s
  if m ∈ validGeminiModels then m else "gemini-1.5-flash".data

/-- The provider branches of `ChatCog._get_ai_response` (src/cogs/chat.py
lines 63-108) and `generate_ai_response` (src/web_server.py lines
241-282). -/
inductive ProviderBranch where
  | openai
  | gemini
deriving DecidableEq, Repr

/-- Dispatch on the provider identifier at call time; `none` is the else
branch that raises `Unsupported AI provider`. -/
def providerBranch (p : List Char) : Option ProviderBranch :=
  if p = "openai".data then some ProviderBranch.openai
  else if p = "gemini".data then some ProviderBranch.gemini
  else none

/-- Outcome of one provider API call, as distinguished by the except
clauses of `ChatCog._get_ai_response` (src/cogs/chat.py lines 115-130):
a successful call carries the raw returned text. -/
inductive CallOutcome where
  | success (content : List Char)
  | rateLimited
  | apiTimeout
  | apiError
  | otherError
deriving DecidableEq, Repr

/-- The failure outcomes: everything except an API-level success. -/
def CallOutcome.isFailure : CallOutcome → Bool
  | .success _ => false
  | _ => true

/-- User-facing message of the `openai.RateLimitError` handler
(src/cogs/chat.py line 117). -/
def rateLimitMsg : List Char :=
  "I\x27m experiencing high traffic right now. Please try again in a moment.".data

/-- User-facing message of the `openai.APITimeoutError` handler
(src/cogs/chat.py line 121). -/
def apiTimeoutMsg : List Char :=
  "The AI service is taking longer than expected. Please try again.".data

/-- User-facing message of the `openai.APIError` handler
(src/cogs/chat.py line 125). -/
def apiErrorMsg : List Char :=
  "I\x27m experiencing technical difficulties. Please try again later.".data

/-- User-facing message of the generic exception handler
(src/cogs/chat.py line 129). -/
def unexpectedMsg : List Char :=
  "An unexpected error occurred. Please try again later.".data

/-- The message returned by a bot-side failure handler for each failure
outcome (src/cogs/chat.py lines 115-130). -/
def botFailureMessage : CallOutcome → List Char
  | .success _ => []
  | .rateLimited => rateLimitMsg
  | .apiTimeout => apiTimeoutMsg
  | .apiError => apiErrorMsg
  | .otherError => unexpectedMsg

/-- Embedding of `ChatCog._get_ai_response` on the openai branch
(src/cogs/chat.py lines 63-71 and 110-130): on success the returned text
is stripped and recorded together with the user message; on any
exception the handler message is returned and the history is untouched.
Returns the reply text and the new history of the calling user. -/
def getAiResponseOpenai (maxHist : Nat) (history : List Msg)
    (message : List Char) (outcome : CallOutcome) : List Char × List Msg :=
  match outcome with
  | .success content =>
    let aiResponse := pyStrip content
    (aiResponse, updateConversationHistory maxHist history message aiResponse)
  | out => (botFailureMessage out, history)

/-- Embedding of `ChatCog._get_ai_response` on the gemini branch
(src/cogs/chat.py lines 72-106 and 110-130): the extracted text is
stripped; an empty result raises `RuntimeError` which the generic handler
turns into the unexpected-error message without touching the history. -/
def getAiResponseGemini (maxHist : Nat) (history : List Msg)
    (message : List Char) (outcome : CallOutcome) : List Char × List Msg :=
  match outcome with
  | .success content =>
    let aiResponse := pyStrip content
    if aiResponse = [] then (unexpectedMsg, history)
    else (aiResponse, updateConversationHistory maxHist history message aiResponse)
  | out => (botFailureMessage out, history)

/-- User-facing message of the catch-all handler of
`generate_ai_response` (src/web_server.py lines 284-287). -/
def webUnavailableMsg : List Char :=
  "The AI service is currently unavailable. Verify API keys, model names, and outbound network connectivity.".data

/-- Embedding of `generate_ai_response` (src/web_server.py lines
237-287): on success the text is stripped and an empty result raises
(caught by the catch-all handler); every failure yields the single
unavailable message. -/
def generateAiResponse (outcome : CallOutcome) : List Char :=
  match outcome with
  | .success content =>
    let text := pyStrip content
    if text ≠ [] then text else webUnavailableMsg
  | _ => webUnavailableMsg

/-- Embedding of the `/api/chat` endpoint `chat` (src/web_server.py lines
69-108): the request message is stripped, an empty message is rejected
(`none`, the 400 response); otherwise the user entry is stored, the
provider is called, and the reply is stored under role ai. Returns the
reply and the new stored history of the session user. -/
def webChat (history : List Msg) (rawMessage : List Char)
    (outcome : CallOutcome) : Option (List Char × List Msg) :=
  let message := pyStrip rawMessage
  if message = [] then none
  else
    let h1 := history ++ [⟨"user", message⟩]
    let aiResponse := generateAiResponse outcome
    some (aiResponse, h1 ++ [⟨"ai", aiResponse⟩])

/-- A sequence of exchanges through the web endpoint, starting from the
empty history of a fresh session. -/
def runWebChats (xs : List (List Char × CallOutcome)) : List Msg :=
  xs.foldl (fun h p => match webChat h p.1 p.2 with
    | some r => r.2
    | none => h) []




/-- A history consisting of whole exchanges: user entry then assistant
entry, repeated. -/
def isUA : List Msg → Bool
  | [] => true
  | [_] => false
  | u :: a :: rest => u.role == "user" && a.role == "assistant" && isUA rest

section StripLemmas

theorem isWS_space : isWS ' ' = true := rfl

theorem dropWhile_dropWhile_self (p : Char → Bool) :
    ∀ (l : List Char), (l.dropWhile p).dropWhile p = l.dropWhile p
  | [] => rfl
  | c :: rest => by
    by_cases h : p c
    · rw [List.dropWhile_cons_of_pos h]
      exact dropWhile_dropWhile_self p rest
    · rw [List.dropWhile_cons_of_neg h, List.dropWhile_cons_of_neg h]

theorem trimEnd_nil : trimEnd [] = [] := rfl

theorem pyStrip_nil : pyStrip [] = [] := rfl

theorem trimEnd_length_le (s : List Char) : (trimEnd s).length ≤ s.length := by
  unfold trimEnd
  rw [List.length_reverse]
  have h := (List.dropWhile_sublist (l := s.reverse) isWS).length_le
  rwa [List.length_reverse] at h

theorem pyStrip_length_le (s : List Char) : (pyStrip s).length ≤ s.length := by
  unfold pyStrip
  calc ((trimEnd s).dropWhile isWS).length ≤ (trimEnd s).length :=
        (List.dropWhile_sublist isWS).length_le
    _ ≤ s.length := trimEnd_length_le s

theorem trimEnd_append_space (s : List Char) : trimEnd (s ++ [' ']) = trimEnd s := by
  unfold trimEnd
  rw [List.reverse_append]
  simp only [List.reverse_cons, List.reverse_nil, List.nil_append, List.singleton_append]
  rw [List.dropWhile_cons_of_pos isWS_space]

theorem pyStrip_append_space (s : List Char) : pyStrip (s ++ [' ']) = pyStrip s := by
  unfold pyStrip
  rw [trimEnd_append_space]

theorem trimEnd_getLast_not_ws (s : List Char) (c : Char)
    (h : (trimEnd s).getLast? = some c) : isWS c = false := by
  unfold trimEnd at h
  rw [List.getLast?_eq_head?_reverse, List.reverse_reverse] at h
  have := List.head?_dropWhile_not isWS s.reverse
  rw [h] at this
  exact this

theorem trimEnd_eq_self_of_getLast (t : List Char)
    (h : ∀ c, t.getLast? = some c → isWS c = false) : trimEnd t = t := by
  unfold trimEnd
  cases hr : t.reverse with
  | nil =>
    have : t = [] := by
      have := congrArg List.reverse hr
      rwa [List.reverse_reverse] at this
    simp [this]
  | cons c r =>
    have hlast : t.getLast? = some c := by
      rw [List.getLast?_eq_head?_reverse, hr]
      rfl
    have hc : isWS c = false := h c hlast
    rw [List.dropWhile_cons_of_neg (by simp [hc]), ← hr, List.reverse_reverse]

theorem getLast?_of_suffix {t m : List Char} (h : t <:+ m) (hne : t ≠ []) :
    t.getLast? = m.getLast? := by
  obtain ⟨u, rfl⟩ := h
  rw [List.getLast?_append]
  cases ht : t.getLast? with
  | none => exact absurd (List.getLast?_eq_none_iff.mp ht) hne
  | some c => rfl

theorem pyStrip_idem (s : List Char) : pyStrip (pyStrip s) = pyStrip s := by
  by_cases hempty : pyStrip s = []
  · rw [hempty, pyStrip_nil]
  · have h1 : trimEnd (pyStrip s) = pyStrip s := by
      apply trimEnd_eq_self_of_getLast
      intro c hc
      have hsuffix : pyStrip s <:+ trimEnd s := List.dropWhile_suffix isWS
      have : (pyStrip s).getLast? = (trimEnd s).getLast? :=
        getLast?_of_suffix hsuffix hempty
      exact trimEnd_getLast_not_ws s c (this ▸ hc)
    show (trimEnd (pyStrip s)).dropWhile isWS = pyStrip s
    rw [h1]
    show ((trimEnd s).dropWhile isWS).dropWhile isWS = pyStrip s
    exact dropWhile_dropWhile_self isWS (trimEnd s)

end StripLemmas

section ContentLemmas

theorem removeWS_nil : removeWS [] = [] := rfl

theorem removeWS_append (s t : List Char) :
    removeWS (s ++ t) = removeWS s ++ removeWS t := by
  unfold removeWS
  exact List.filter_append s t

theorem removeWS_cons_ws {c : Char} (h : isWS c = true) (l : List Char) :
    removeWS (c :: l) = removeWS l := by
  unfold removeWS
  rw [List.filter_cons_of_neg (by simp [h])]

theorem removeWS_cons_not_ws {c : Char} (h : isWS c = false) (l : List Char) :
    removeWS (c :: l) = c :: removeWS l := by
  unfold removeWS
  rw [List.filter_cons_of_pos (by simp [h])]

theorem removeWS_reverse (l : List Char) :
    removeWS l.reverse = (removeWS l).reverse := by
  unfold removeWS
  exact List.filter_reverse _ l

theorem removeWS_dropWhile_ws :
    ∀ (l : List Char), removeWS (l.dropWhile isWS) = removeWS l
  | [] => rfl
  | c :: rest => by
    by_cases h : isWS c = true
    · rw [List.dropWhile_cons_of_pos h, removeWS_cons_ws h,
        removeWS_dropWhile_ws rest]
    · rw [List.dropWhile_cons_of_neg h]

theorem removeWS_trimEnd (s : List Char) : removeWS (trimEnd s) = removeWS s := by
  unfold trimEnd
  rw [removeWS_reverse, removeWS_dropWhile_ws, removeWS_reverse,
    List.reverse_reverse]

theorem removeWS_pyStrip (s : List Char) : removeWS (pyStrip s) = removeWS s := by
  unfold pyStrip
  rw [removeWS_dropWhile_ws, removeWS_trimEnd]

theorem removeWS_joinSpace :
    ∀ (cs : List (List Char)), removeWS (joinSpace cs) = removeWS cs.flatten
  | [] => rfl
  | [s] => by simp [joinSpace, removeWS_append, removeWS_nil]
  | s :: t :: rest => by
    show removeWS (s ++ ' ' :: joinSpace (t :: rest)) = _
    rw [removeWS_append, removeWS_cons_ws isWS_space,
      removeWS_joinSpace (t :: rest)]
    simp [removeWS_append]

theorem splitSentencesAux_nil (b : Bool) (cur : List Char) :
    splitSentencesAux b [] cur = [cur.reverse] := by
  cases b <;> rfl

theorem splitSentencesAux_true_cons (c : Char) (rest cur : List Char) :
    splitSentencesAux true (c :: rest) cur =
      if isWS c then splitSentencesAux true rest cur
      else splitSentencesAux false rest (c :: cur) := rfl

theorem splitSentencesAux_false_cons (c : Char) (rest cur : List Char) :
    splitSentencesAux false (c :: rest) cur =
      if isWS c && boundaryHead cur then
        cur.reverse :: splitSentencesAux true rest []
      else splitSentencesAux false rest (c :: cur) := rfl

theorem splitSentencesAux_content :
    ∀ (l : List Char) (b : Bool) (cur : List Char), (b = true → cur = []) →
      removeWS (splitSentencesAux b l cur).flatten =
        removeWS cur.reverse ++ removeWS l := by
  intro l
  induction l with
  | nil =>
    intro b cur _
    rw [splitSentencesAux_nil]
    simp [removeWS_nil]
  | cons c rest ih =>
    intro b cur hb
    cases b with
    | true =>
      rw [hb rfl, splitSentencesAux_true_cons]
      by_cases h : isWS c = true
      · rw [if_pos h, ih true [] (fun _ => rfl), removeWS_cons_ws h]
      · have h' : isWS c = false := by simpa using h
        rw [if_neg h, ih false [c] (by simp), removeWS_cons_not_ws h']
        simp [removeWS_nil, removeWS_cons_not_ws h']
    | false =>
      rw [splitSentencesAux_false_cons]
      by_cases hbound : (isWS c && boundaryHead cur) = true
      · have hc : isWS c = true := by
          have h2 := hbound
          simp only [Bool.and_eq_true] at h2
          exact h2.1
        rw [if_pos hbound, List.flatten_cons, removeWS_append,
          ih true [] (fun _ => rfl), removeWS_cons_ws hc]
        simp [removeWS_nil]
      · rw [if_neg hbound, ih false (c :: cur) (by simp), List.reverse_cons,
          removeWS_append]
        by_cases h : isWS c = true
        · rw [removeWS_cons_ws h]
          simp [removeWS_cons_ws h, removeWS_nil]
        · have h' : isWS c = false := by simpa using h
          rw [removeWS_cons_not_ws h']
          simp [removeWS_cons_not_ws h', removeWS_nil]

theorem splitSentences_content (t : List Char) :
    removeWS (splitSentences t).flatten = removeWS t := by
  unfold splitSentences
  rw [splitSentencesAux_content t false [] (by simp)]
  rfl

theorem formatResponseGo_content (maxLen : Nat) :
    ∀ (ss parts : List (List Char)) (cur : List Char),
      removeWS (formatResponseGo maxLen ss parts cur).flatten =
        removeWS parts.flatten ++ removeWS cur ++ removeWS ss.flatten := by
  intro ss
  induction ss with
  | nil =>
    intro parts cur
    show removeWS (if cur ≠ [] then parts ++ [pyStrip cur] else parts).flatten = _
    by_cases h : cur = []
    · simp [h, removeWS_nil]
    · rw [if_pos h, List.flatten_append, removeWS_append]
      simp [removeWS_pyStrip, removeWS_append, removeWS_nil]
  | cons s rest ih =>
    intro parts cur
    show removeWS (if cur.length + s.length + 1 ≤ maxLen then
        formatResponseGo maxLen rest parts (cur ++ pyStrip (s ++ [' ']))
      else formatResponseGo maxLen rest
        (if cur ≠ [] then parts ++ [pyStrip cur] else parts) (s ++ [' '])).flatten = _
    by_cases hfit : cur.length + s.length + 1 ≤ maxLen
    · rw [if_pos hfit, ih, removeWS_append, pyStrip_append_space, removeWS_pyStrip]
      simp [removeWS_append]
    · rw [if_neg hfit, ih]
      by_cases h : cur = []
      · simp [h, removeWS_nil, removeWS_append, removeWS_cons_ws isWS_space]
      · rw [if_pos h, List.flatten_append]
        simp [removeWS_append, removeWS_pyStrip, removeWS_cons_ws isWS_space,
          removeWS_nil]

end ContentLemmas

section ChunkLemmas

theorem formatResponseGo_nil (maxLen : Nat) (parts : List (List Char))
    (cur : List Char) :
    formatResponseGo maxLen [] parts cur =
      if cur ≠ [] then parts ++ [pyStrip cur] else parts := rfl

theorem formatResponseGo_cons (maxLen : Nat) (s : List Char)
    (rest parts : List (List Char)) (cur : List Char) :
    formatResponseGo maxLen (s :: rest) parts cur =
      if cur.length + s.length + 1 ≤ maxLen then
        formatResponseGo maxLen rest parts (cur ++ pyStrip (s ++ [' ']))
      else
        formatResponseGo maxLen rest
          (if cur ≠ [] then parts ++ [pyStrip cur] else parts) (s ++ [' ']) := rfl

theorem formatResponseGo_chunks (maxLen : Nat) (S : List (List Char)) :
    ∀ (ss parts : List (List Char)) (cur : List Char),
      (∀ s ∈ ss, s ∈ S) →
      (∀ p ∈ parts, p.length ≤ maxLen ∨ ∃ s ∈ S, p = pyStrip s) →
      (cur.length ≤ maxLen ∨ ∃ s ∈ S, pyStrip cur = pyStrip s) →
      ∀ c ∈ formatResponseGo maxLen ss parts cur,
        c.length ≤ maxLen ∨ ∃ s ∈ S, c = pyStrip s := by
  intro ss
  induction ss with
  | nil =>
    intro parts cur _ hparts hcur c hc
    rw [formatResponseGo_nil] at hc
    by_cases h : cur = []
    · rw [if_neg (by simp [h])] at hc
      exact hparts c hc
    · rw [if_pos h] at hc
      rcases List.mem_append.mp hc with hin | hone
      · exact hparts c hin
      · have hceq : c = pyStrip cur := by simpa using hone
        rcases hcur with hlen | ⟨s, hs, heq⟩
        · exact Or.inl (hceq ▸ le_trans (pyStrip_length_le cur) hlen)
        · exact Or.inr ⟨s, hs, by rw [hceq, heq]⟩
  | cons s rest ih =>
    intro parts cur hss hparts hcur c hc
    rw [formatResponseGo_cons] at hc
    by_cases hfit : cur.length + s.length + 1 ≤ maxLen
    · rw [if_pos hfit] at hc
      refine ih parts (cur ++ pyStrip (s ++ [' ']))
        (fun x hx => hss x (List.mem_cons_of_mem s hx)) hparts ?_ c hc
      left
      have h1 : (pyStrip (s ++ [' '])).length ≤ s.length := by
        rw [pyStrip_append_space]
        exact pyStrip_length_le s
      rw [List.length_append]
      omega
    · rw [if_neg hfit] at hc
      refine ih _ (s ++ [' '])
        (fun x hx => hss x (List.mem_cons_of_mem s hx)) ?_ ?_ c hc
      · intro p hp
        by_cases h : cur = []
        · rw [if_neg (by simp [h])] at hp
          exact hparts p hp
        · rw [if_pos h] at hp
          rcases List.mem_append.mp hp with hin | hone
          · exact hparts p hin
          · have hpeq : p = pyStrip cur := by simpa using hone
            rcases hcur with hlen | ⟨x, hx, heq⟩
            · exact Or.inl (hpeq ▸ le_trans (pyStrip_length_le cur) hlen)
            · exact Or.inr ⟨x, hx, by rw [hpeq, heq]⟩
      · exact Or.inr ⟨s, hss s (List.mem_cons_self s rest), pyStrip_append_space s⟩

theorem formatResponseGo_trimmed (maxLen : Nat) :
    ∀ (ss parts : List (List Char)) (cur : List Char),
      (∀ p ∈ parts, pyStrip p = p) →
      ∀ c ∈ formatResponseGo maxLen ss parts cur, pyStrip c = c := by
  intro ss
  induction ss with
  | nil =>
    intro parts cur hparts c hc
    rw [formatResponseGo_nil] at hc
    by_cases h : cur = []
    · rw [if_neg (by simp [h])] at hc
      exact hparts c hc
    · rw [if_pos h] at hc
      rcases List.mem_append.mp hc with hin | hone
      · exact hparts c hin
      · have hceq : c = pyStrip cur := by simpa using hone
        rw [hceq]
        exact pyStrip_idem cur
  | cons s rest ih =>
    intro parts cur hparts c hc
    rw [formatResponseGo_cons] at hc
    by_cases hfit : cur.length + s.length + 1 ≤ maxLen
    · rw [if_pos hfit] at hc
      exact ih parts _ hparts c hc
    · rw [if_neg hfit] at hc
      refine ih _ (s ++ [' ']) ?_ c hc
      intro p hp
      by_cases h : cur = []
      · rw [if_neg (by simp [h])] at hp
        exact hparts p hp
      · rw [if_pos h] at hp
        rcases List.mem_append.mp hp with hin | hone
        · exact hparts p hin
        · have hpeq : p = pyStrip cur := by simpa using hone
          rw [hpeq]
          exact pyStrip_idem cur

end ChunkLemmas

section ChunkClaims

/-- C4: every chunk returned by `_format_response` has length at most the
message limit, except that a chunk which is a single (stripped) sentence
longer than the limit is passed through unsplit. -/
theorem chunk_length_bound (maxLen : Nat) (t : List Char) :
    ∀ c ∈ formatResponse maxLen t,
      c.length ≤ maxLen ∨
        (maxLen < c.length ∧ ∃ s ∈ splitSentences t, c = pyStrip s) := by
  intro c hc
  unfold formatResponse at hc
  by_cases hshort : t.length ≤ maxLen
  · rw [if_pos hshort] at hc
    have hct : c = t := by simpa using hc
    exact Or.inl (hct ▸ hshort)
  · rw [if_neg hshort] at hc
    have h := formatResponseGo_chunks maxLen (splitSentences t)
      (splitSentences t) [] [] (fun s hs => hs) (by simp)
      (Or.inl (by simp)) c hc
    rcases h with h | h
    · exact Or.inl h
    · by_cases hlen : c.length ≤ maxLen
      · exact Or.inl hlen
      · exact Or.inr ⟨Nat.lt_of_not_le hlen, h⟩

/-- Witness for C4 at a concrete chunking. -/
theorem chunk_length_bound_witness :
    "c.".data ∈ formatResponse 5 "a. b. c.".data ∧
      ("c.".data.length ≤ 5 ∨
        (5 < "c.".data.length ∧
          ∃ s ∈ splitSentences "a. b. c.".data, "c.".data = pyStrip s)) :=
  ⟨by decide, chunk_length_bound 5 "a. b. c.".data "c.".data (by decide)⟩

/-- C5 counterexample: chunking "a. b. c." at limit 5 yields the chunks
"a.b." and "c."; joining them with single spaces gives "a.b. c.", which
differs from the whitespace-normalized original "a. b. c.": the space
between sentences packed into one chunk is lost. -/
theorem chunk_join_counterexample :
    normWS (joinSpace (formatResponse 5 "a. b. c.".data)) ≠
        normWS "a. b. c.".data ∧
      joinSpace (formatResponse 5 "a. b. c.".data) ≠ normWS "a. b. c.".data := by
  decide

/-- C5 amended: joining the chunks preserves exactly the non-whitespace
characters of the original text in order; whitespace between sentences
packed into the same chunk is dropped (so reassembly holds only up to
deletion of whitespace, not up to whitespace normalization). -/
theorem chunk_join_content (maxLen : Nat) (t : List Char) :
    removeWS (joinSpace (formatResponse maxLen t)) = removeWS t := by
  unfold formatResponse
  by_cases h : t.length ≤ maxLen
  · rw [if_pos h]
    rfl
  · rw [if_neg h, removeWS_joinSpace, formatResponseGo_content]
    simpa [removeWS_nil] using splitSentences_content t

/-- C6 counterexample: the short path returns the text verbatim, so the
empty input yields an empty chunk and padded short input is not trimmed;
the splitting path emits a trailing empty chunk when the text ends with
whitespace after a sentence terminator. -/
theorem chunk_nonempty_counterexample :
    formatResponse 2000 ([] : List Char) = [[]] ∧
      formatResponse 3 "abcd. ".data = ["abcd.".data, []] ∧
      formatResponse 2000 " hi ".data = [" hi ".data] ∧
      pyStrip " hi ".data ≠ " hi ".data := by
  decide

/-- C6 amended: when the input is longer than the limit, every returned
chunk is trimmed of surrounding whitespace (a trailing chunk may still be
empty, and a short input is returned verbatim, untrimmed). -/
theorem chunk_trimmed (maxLen : Nat) (t : List Char) (h : maxLen < t.length) :
    ∀ c ∈ formatResponse maxLen t, pyStrip c = c := by
  intro c hc
  unfold formatResponse at hc
  rw [if_neg (by omega)] at hc
  exact formatResponseGo_trimmed maxLen (splitSentences t) [] [] (by simp) c hc

/-- Witness for C6 amended at a concrete chunking. -/
theorem chunk_trimmed_witness : pyStrip "abcd.".data = "abcd.".data :=
  chunk_trimmed 3 "abcd. ".data (by decide) "abcd.".data (by decide)

/-- C7: a text no longer than the limit is returned unmodified as the
single chunk. -/
theorem chunk_short_identity (maxLen : Nat) (t : List Char)
    (h : t.length ≤ maxLen) : formatResponse maxLen t = [t] := by
  unfold formatResponse
  rw [if_pos h]

/-- Witness for C7 at a concrete short text. -/
theorem chunk_short_identity_witness :
    formatResponse 2000 "Hello. World.".data = ["Hello. World.".data] :=
  chunk_short_identity 2000 "Hello. World.".data (by decide)

end ChunkClaims

section StoreLemmas

theorem fullHistory_append (xs : List (List Char × List Char))
    (p : List Char × List Char) :
    fullHistory (xs ++ [p]) =
      fullHistory xs ++ [Msg.mk "user" p.1, Msg.mk "assistant" p.2] := by
  unfold fullHistory
  rw [List.map_append, List.flatten_append]
  simp

theorem fullHistory_length (xs : List (List Char × List Char)) :
    (fullHistory xs).length = 2 * xs.length := by
  induction xs with
  | nil => rfl
  | cons p rest ih =>
    unfold fullHistory at ih ⊢
    simp only [List.map_cons, List.flatten_cons, List.length_append,
      List.length_cons] at ih ⊢
    simp only [List.length_nil]
    omega

theorem runAppends_append_one (maxHist : Nat)
    (xs : List (List Char × List Char)) (p : List Char × List Char) :
    runAppends maxHist (xs ++ [p]) =
      updateConversationHistory maxHist (runAppends maxHist xs) p.1 p.2 := by
  unfold runAppends
  rw [List.foldl_append]
  rfl

theorem update_drop_step (ful : List Msg) (u a : List Char)
    (heven : ful.length % 2 = 0) :
    updateConversationHistory 10 (ful.drop (ful.length - 20)) u a =
      (ful ++ [Msg.mk "user" u, Msg.mk "assistant" a]).drop
        ((ful ++ [Msg.mk "user" u, Msg.mk "assistant" a]).length - 20) := by
  unfold updateConversationHistory
  simp only [List.length_append, List.length_drop, List.length_cons,
    List.length_nil]
  set n := ful.length with hn
  by_cases hc : n ≤ 18
  · rw [if_neg (by omega)]
    rw [show n - 20 = 0 from by omega, List.drop_zero,
      show n + (0 + 1 + 1) - 20 = 0 from by omega, List.drop_zero]
  · have h20 : 20 ≤ n := by omega
    rw [if_pos (by omega)]
    rw [show n - (n - 20) + (0 + 1 + 1) - 20 = 2 from by omega]
    rw [List.drop_append_of_le_length (by rw [List.length_drop]; omega),
      List.drop_drop,
      List.drop_append_of_le_length (by omega),
      show n - 20 + 2 = n + (0 + 1 + 1) - 20 from by omega]

theorem runAppends_eq_drop (xs : List (List Char × List Char)) :
    runAppends 10 xs = (fullHistory xs).drop ((fullHistory xs).length - 20) := by
  induction xs using List.reverseRecOn with
  | nil => rfl
  | append_singleton xs p ih =>
    rw [runAppends_append_one, ih, fullHistory_append]
    exact update_drop_step (fullHistory xs) p.1 p.2
      (by rw [fullHistory_length]; omega)

theorem isUA_nil : isUA [] = true := rfl

theorem isUA_cons_cons (u a : Msg) (rest : List Msg) :
    isUA (u :: a :: rest) =
      (u.role == "user" && a.role == "assistant" && isUA rest) := rfl

theorem isUA_append (u a : List Char) :
    ∀ (l : List Msg), isUA l = true →
      isUA (l ++ [Msg.mk "user" u, Msg.mk "assistant" a]) = true
  | [], _ => rfl
  | [x], h => by simp [isUA] at h
  | x :: y :: rest, h => by
    rw [List.cons_append, List.cons_append, isUA_cons_cons]
    rw [isUA_cons_cons] at h
    simp only [Bool.and_eq_true] at h ⊢
    exact ⟨h.1, isUA_append u a rest h.2⟩

theorem isUA_length :
    ∀ (l : List Msg), isUA l = true → l.length % 2 = 0
  | [], _ => rfl
  | [x], h => by simp [isUA] at h
  | _ :: _ :: rest, h => by
    rw [isUA_cons_cons] at h
    simp only [Bool.and_eq_true] at h
    have := isUA_length rest h.2
    simp only [List.length_cons]
    omega

theorem isUA_drop_two :
    ∀ (l : List Msg), isUA l = true → isUA (l.drop 2) = true
  | [], _ => rfl
  | [x], h => by simp [isUA] at h
  | _ :: _ :: rest, h => by
    rw [isUA_cons_cons] at h
    simp only [Bool.and_eq_true] at h
    exact h.2

theorem isUA_drop_even :
    ∀ (k : Nat) (l : List Msg), isUA l = true → isUA (l.drop (2 * k)) = true
  | 0, l, h => h
  | k + 1, l, h => by
    have h2 := isUA_drop_two l h
    have := isUA_drop_even k (l.drop 2) h2
    rw [List.drop_drop] at this
    rwa [show 2 * (k + 1) = 2 + 2 * k from by omega]

theorem isUA_update (h : List Msg) (u a : List Char) (hUA : isUA h = true) :
    isUA (updateConversationHistory 10 h u a) = true := by
  have happ : isUA (h ++ [Msg.mk "user" u, Msg.mk "assistant" a]) = true :=
    isUA_append u a h hUA
  unfold updateConversationHistory
  by_cases hc : 10 * 2 < (h ++ [Msg.mk "user" u, Msg.mk "assistant" a]).length
  · rw [if_pos hc]
    have heven : (h ++ [Msg.mk "user" u, Msg.mk "assistant" a]).length % 2 = 0 :=
      isUA_length _ happ
    obtain ⟨k, hk⟩ : ∃ k,
        (h ++ [Msg.mk "user" u, Msg.mk "assistant" a]).length - 10 * 2 = 2 * k :=
      ⟨((h ++ [Msg.mk "user" u, Msg.mk "assistant" a]).length - 10 * 2) / 2,
        by omega⟩
    rw [hk]
    exact isUA_drop_even k _ happ
  · rw [if_neg hc]
    exact happ

theorem runAppends_isUA (xs : List (List Char × List Char)) :
    isUA (runAppends 10 xs) = true := by
  have hgen : ∀ (ys : List (List Char × List Char)) (h : List Msg),
      isUA h = true →
      isUA (ys.foldl (fun h p => updateConversationHistory 10 h p.1 p.2) h) = true := by
    intro ys
    induction ys with
    | nil => intro h hh; exact hh
    | cons p rest ih =>
      intro h hh
      exact ih _ (isUA_update h p.1 p.2 hh)
  exact hgen xs [] rfl

theorem isUA_get :
    ∀ (l : List Msg), isUA l = true → ∀ (i : Nat) (hi : i < l.length),
      (l.get ⟨i, hi⟩).role = if i % 2 = 0 then "user" else "assistant"
  | [], _, i, hi => absurd hi (by simp)
  | [x], h, _, _ => by simp [isUA] at h
  | u :: a :: rest, h, i, hi => by
    rw [isUA_cons_cons] at h
    simp only [Bool.and_eq_true, beq_iff_eq] at h
    cases i with
    | zero => simpa using h.1.1
    | succ i' =>
      cases i' with
      | zero => simpa using h.1.2
      | succ n =>
        have hn : n < rest.length := by
          simp only [List.length_cons] at hi
          omega
        have hrec := isUA_get rest h.2 n hn
        have hget : (u :: a :: rest).get ⟨n + 1 + 1, hi⟩ = rest.get ⟨n, hn⟩ := rfl
        rw [hget, hrec, show (n + 1 + 1) % 2 = n % 2 from by omega]

end StoreLemmas

section StoreClaims

/-- C1 counterexample: the web server's conversation store is never
trimmed; after 11 exchanges through the `/api/chat` endpoint a session's
stored history has 22 entries, exceeding the claimed bound of
`2 * max_turns = 20`. -/
theorem web_history_unbounded_counterexample :
    (runWebChats (List.replicate 11 ("hi".data, CallOutcome.success "ok".data))).length
        = 22 ∧
      ¬ ((runWebChats
          (List.replicate 11 ("hi".data, CallOutcome.success "ok".data))).length
            ≤ 2 * maxHistoryLength) := by
  decide

/-- C1 amended: in the bot cog the invariant does hold: after every
sequence of appends the stored history is exactly the suffix of the most
recent entries of the full exchange sequence, in original order, and its
length never exceeds `2 * max_turns = 20`. The web server's store is
unbounded (only the prompt built from it is truncated). -/
theorem history_trim_invariant (xs : List (List Char × List Char)) :
    runAppends maxHistoryLength xs =
        (fullHistory xs).drop
          ((fullHistory xs).length - 2 * maxHistoryLength) ∧
      (runAppends maxHistoryLength xs).length ≤ 2 * maxHistoryLength := by
  have h := runAppends_eq_drop xs
  constructor
  · exact h
  · rw [show runAppends maxHistoryLength xs = runAppends 10 xs from rfl, h,
      List.length_drop]
    simp only [maxHistoryLength]
    have := fullHistory_length xs
    omega

/-- C10: the bot cog's stored history always has even length and
alternates roles, user at even indices and assistant at odd indices:
appends add whole user-assistant pairs and trimming drops whole pairs. -/
theorem history_alternation (xs : List (List Char × List Char)) :
    (runAppends maxHistoryLength xs).length % 2 = 0 ∧
      ∀ (i : Nat) (hi : i < (runAppends maxHistoryLength xs).length),
        ((runAppends maxHistoryLength xs).get ⟨i, hi⟩).role =
          if i % 2 = 0 then "user" else "assistant" := by
  have h := runAppends_isUA xs
  exact ⟨isUA_length _ h, fun i hi => isUA_get _ h i hi⟩

/-- Witness for C10 at a single concrete exchange. -/
theorem history_alternation_witness :
    ((runAppends maxHistoryLength [("a".data, "b".data)]).get
          ⟨0, by decide⟩).role = (if 0 % 2 = 0 then "user" else "assistant") ∧
      ((runAppends maxHistoryLength [("a".data, "b".data)]).get
          ⟨1, by decide⟩).role = (if 1 % 2 = 0 then "user" else "assistant") :=
  ⟨(history_alternation [("a".data, "b".data)]).2 0 (by decide),
   (history_alternation [("a".data, "b".data)]).2 1 (by decide)⟩

end StoreClaims

section PipelineClaims

/-- C2 counterexample: in the web server a provider failure (here a
rate-limit condition) still mutates the conversation store: the user
message and the user-facing failure text are both appended, so the
history after the failed call differs from the history before it. -/
theorem web_failure_appends_counterexample :
    webChat [] "hi".data CallOutcome.rateLimited =
        some (webUnavailableMsg,
          [Msg.mk "user" "hi".data, Msg.mk "ai" webUnavailableMsg]) ∧
      [Msg.mk "user" "hi".data, Msg.mk "ai" webUnavailableMsg] ≠ ([] : List Msg) := by
  decide

/-- C2 amended: in the bot cog a provider failure returns the
corresponding user-facing failure message and appends nothing, leaving
the history exactly as before the call; in the web server a failure
returns the generic unavailable message and the failed exchange (user
message plus failure text) is appended to the store. -/
theorem failure_no_append (h : List Msg) (m : List Char) (out : CallOutcome)
    (hfail : out.isFailure = true) :
    getAiResponseOpenai 10 h m out = (botFailureMessage out, h) ∧
      getAiResponseGemini 10 h m out = (botFailureMessage out, h) ∧
      ∀ raw : List Char, pyStrip raw ≠ [] →
        webChat h raw out =
          some (webUnavailableMsg,
            (h ++ [Msg.mk "user" (pyStrip raw)]) ++ [Msg.mk "ai" webUnavailableMsg]) := by
  refine ⟨?_, ?_, ?_⟩
  · cases out with
    | success content => simp [CallOutcome.isFailure] at hfail
    | rateLimited => rfl
    | apiTimeout => rfl
    | apiError => rfl
    | otherError => rfl
  · cases out with
    | success content => simp [CallOutcome.isFailure] at hfail
    | rateLimited => rfl
    | apiTimeout => rfl
    | apiError => rfl
    | otherError => rfl
  · intro raw hraw
    unfold webChat
    rw [if_neg hraw]
    cases out with
    | success content => simp [CallOutcome.isFailure] at hfail
    | rateLimited => rfl
    | apiTimeout => rfl
    | apiError => rfl
    | otherError => rfl

/-- Witness for C2 amended at a concrete rate-limited call. -/
theorem failure_no_append_witness :
    getAiResponseOpenai 10 [] "q".data CallOutcome.rateLimited =
        (botFailureMessage CallOutcome.rateLimited, []) ∧
      webChat [] "q".data CallOutcome.rateLimited =
        some (webUnavailableMsg,
          (([] : List Msg) ++ [Msg.mk "user" (pyStrip "q".data)])
            ++ [Msg.mk "ai" webUnavailableMsg]) :=
  ⟨(failure_no_append [] "q".data CallOutcome.rateLimited (by decide)).1,
   (failure_no_append [] "q".data CallOutcome.rateLimited (by decide)).2.2
     "q".data (by decide)⟩

/-- C3 counterexample: the bot cog's OpenAI branch has no emptiness check:
a provider success whose payload is whitespace-only is stripped to the
empty string, returned to the caller as the answer, and recorded in the
conversation history as the assistant entry. -/
theorem empty_response_recorded_counterexample :
    getAiResponseOpenai 10 [] "hi".data (CallOutcome.success "   ".data) =
      ([], [Msg.mk "user" "hi".data, Msg.mk "assistant" []]) := by
  decide

/-- C3 amended: the successful provider text is always stripped of
surrounding whitespace; a whitespace-only success is treated as a failure
(without recording) in the bot cog's Gemini branch and in the web server,
but the bot cog's OpenAI branch returns and records the empty string. -/
theorem empty_response_classification (h : List Msg) (m c : List Char) :
    (getAiResponseOpenai 10 h m (CallOutcome.success c)).1 = pyStrip c ∧
      (pyStrip c = [] →
        getAiResponseGemini 10 h m (CallOutcome.success c) = (unexpectedMsg, h)) ∧
      (pyStrip c = [] →
        generateAiResponse (CallOutcome.success c) = webUnavailableMsg) ∧
      (pyStrip c ≠ [] →
        generateAiResponse (CallOutcome.success c) = pyStrip c) ∧
      webUnavailableMsg ≠ [] ∧ unexpectedMsg ≠ [] := by
  refine ⟨rfl, ?_, ?_, ?_, by decide, by decide⟩
  · intro hempty
    show (if pyStrip c = [] then (unexpectedMsg, h)
      else (pyStrip c, updateConversationHistory 10 h m (pyStrip c))) = (unexpectedMsg, h)
    rw [if_pos hempty]
  · intro hempty
    show (if pyStrip c ≠ [] then pyStrip c else webUnavailableMsg) = webUnavailableMsg
    rw [if_neg (by simp [hempty])]
  · intro hne
    show (if pyStrip c ≠ [] then pyStrip c else webUnavailableMsg) = pyStrip c
    rw [if_pos hne]

/-- Witness for C3 amended at a concrete whitespace-only success. -/
theorem empty_response_classification_witness :
    getAiResponseGemini 10 [] "hi".data (CallOutcome.success " ".data) =
        (unexpectedMsg, []) ∧
      generateAiResponse (CallOutcome.success " ".data) = webUnavailableMsg :=
  ⟨(empty_response_classification [] "hi".data " ".data).2.1 (by decide),
   (empty_response_classification [] "hi".data " ".data).2.2.1 (by decide)⟩

end PipelineClaims

section ContextClaims

/-- C8: for any stored history (stores only ever hold user/assistant
entries in the bot cog and user/ai entries in the web server), the built
prompt context has exactly one system entry, at index 0, is followed by
the history entries in their original chronological order (in the web
server, by an order-preserving selection of them with roles normalized),
and always ends with the new message as a user entry. -/
theorem context_shape (hist : List Msg) (m : List Char)
    (hroles : ∀ e ∈ hist, e.role = "user" ∨ e.role = "assistant") :
    (buildConversationContext hist m).head? =
        some (Msg.mk "system" systemPromptBot) ∧
      ((buildConversationContext hist m).filter
        (fun e => e.role == "system")).length = 1 ∧
      (buildConversationContext hist m).dropLast =
        Msg.mk "system" systemPromptBot :: hist ∧
      (buildConversationContext hist m).getLast? = some (Msg.mk "user" m) ∧
      ∀ (whist : List Msg), (∀ e ∈ whist, e.role = "user" ∨ e.role = "ai") →
        (buildMessages whist m).head? = some (Msg.mk "system" systemPromptWeb) ∧
        ((buildMessages whist m).filter
          (fun e => e.role == "system")).length = 1 ∧
        (buildMessages whist m).getLast? = some (Msg.mk "user" m) ∧
        ((buildMessages whist m).drop 1).dropLast.Sublist
          (whist.map (fun e => Msg.mk (normalizeWebRole e.role) e.content)) := by
  refine ⟨rfl, ?_, ?_, ?_, ?_⟩
  · show ((Msg.mk "system" systemPromptBot ::
      (hist ++ [Msg.mk "user" m])).filter (fun e => e.role == "system")).length = 1
    have hnil : (hist ++ [Msg.mk "user" m]).filter
        (fun e => e.role == "system") = [] := by
      refine List.filter_eq_nil_iff.mpr ?_
      intro e he
      rcases List.mem_append.mp he with hh | hone
      · rcases hroles e hh with h | h <;> simp [h]
      · have heq : e = Msg.mk "user" m := by simpa using hone
        simp [heq]
    rw [List.filter_cons_of_pos (by decide), hnil]
    rfl
  · show ((Msg.mk "system" systemPromptBot :: hist) ++
      [Msg.mk "user" m]).dropLast = Msg.mk "system" systemPromptBot :: hist
    exact List.dropLast_concat
  · show ((Msg.mk "system" systemPromptBot :: hist) ++
      [Msg.mk "user" m]).getLast? = some (Msg.mk "user" m)
    exact List.getLast?_concat _
  · intro whist hwroles
    refine ⟨rfl, ?_, ?_, ?_⟩
    · show ((Msg.mk "system" systemPromptWeb ::
        (((whist.drop (whist.length - 20)).filter
            (fun item => item.content ≠ [])).map
          (fun item => Msg.mk (normalizeWebRole item.role) item.content) ++
          [Msg.mk "user" m])).filter (fun e => e.role == "system")).length = 1
      have hnil : (((whist.drop (whist.length - 20)).filter
            (fun item => item.content ≠ [])).map
          (fun item => Msg.mk (normalizeWebRole item.role) item.content) ++
          [Msg.mk "user" m]).filter (fun e => e.role == "system") = [] := by
        refine List.filter_eq_nil_iff.mpr ?_
        intro e he
        rcases List.mem_append.mp he with hh | hone
        · obtain ⟨e2, he2, rfl⟩ := List.mem_map.mp hh
          have he2w : e2 ∈ whist :=
            (List.drop_sublist _ _).subset (List.mem_of_mem_filter he2)
          rcases hwroles e2 he2w with h | h <;> simp [h, normalizeWebRole]
        · have heq : e = Msg.mk "user" m := by simpa using hone
          simp [heq]
      rw [List.filter_cons_of_pos (by decide), hnil]
      rfl
    · show ((Msg.mk "system" systemPromptWeb ::
        ((whist.drop (whist.length - 20)).filter
            (fun item => item.content ≠ [])).map
          (fun item => Msg.mk (normalizeWebRole item.role) item.content)) ++
          [Msg.mk "user" m]).getLast? = some (Msg.mk "user" m)
      exact List.getLast?_concat _
    · show ((((whist.drop (whist.length - 20)).filter
          (fun item => item.content ≠ [])).map
          (fun item => Msg.mk (normalizeWebRole item.role) item.content) ++
          [Msg.mk "user" m]).dropLast).Sublist
        (whist.map (fun e => Msg.mk (normalizeWebRole e.role) e.content))
      rw [List.dropLast_concat]
      exact List.Sublist.map _
        (((List.filter_sublist _).trans (List.drop_sublist _ _)))

/-- Witness for C8 at concrete one-entry histories. -/
theorem context_shape_witness :
    (buildConversationContext [Msg.mk "user" "a".data] "q".data).getLast? =
        some (Msg.mk "user" "q".data) ∧
      (buildMessages [Msg.mk "ai" "b".data] "q".data).head? =
        some (Msg.mk "system" systemPromptWeb) :=
  ⟨(context_shape [Msg.mk "user" "a".data] "q".data (by decide)).2.2.2.1,
   ((context_shape [Msg.mk "user" "a".data] "q".data (by decide)).2.2.2.2
     [Msg.mk "ai" "b".data] (by decide)).1⟩

end ContextClaims

section ConfigLemmas

theorem pyLowerChar_eq_self_of_not_upper (c : Char)
    (h : c ∉ "ABCDEFGHIJKLMNOPQRSTUVWXYZ".data) : pyLowerChar c = c := by
  unfold pyLowerChar
  rw [if_neg (show ¬ c = 'A' from fun he => h (by rw [he]; decide))]
  rw [if_neg (show ¬ c = 'B' from fun he => h (by rw [he]; decide))]
  rw [if_neg (show ¬ c = 'C' from fun he => h (by rw [he]; decide))]
  rw [if_neg (show ¬ c = 'D' from fun he => h (by rw [he]; decide))]
  rw [if_neg (show ¬ c = 'E' from fun he => h (by rw [he]; decide))]
  rw [if_neg (show ¬ c = 'F' from fun he => h (by rw [he]; decide))]
  rw [if_neg (show ¬ c = 'G' from fun he => h (by rw [he]; decide))]
  rw [if_neg (show ¬ c = 'H' from fun he => h (by rw [he]; decide))]
  rw [if_neg (show ¬ c = 'I' from fun he => h (by rw [he]; decide))]
  rw [if_neg (show ¬ c = 'J' from fun he => h (by rw [he]; decide))]
  rw [if_neg (show ¬ c = 'K' from fun he => h (by rw [he]; decide))]
  rw [if_neg (show ¬ c = 'L' from fun he => h (by rw [he]; decide))]
  rw [if_neg (show ¬ c = 'M' from fun he => h (by rw [he]; decide))]
  rw [if_neg (show ¬ c = 'N' from fun he => h (by rw [he]; decide))]
  rw [if_neg (show ¬ c = 'O' from fun he => h (by rw [he]; decide))]
  rw [if_neg (show ¬ c = 'P' from fun he => h (by rw [he]; decide))]
  rw [if_neg (show ¬ c = 'Q' from fun he => h (by rw [he]; decide))]
  rw [if_neg (show ¬ c = 'R' from fun he => h (by rw [he]; decide))]
  rw [if_neg (show ¬ c = 'S' from fun he => h (by rw [he]; decide))]
  rw [if_neg (show ¬ c = 'T' from fun he => h (by rw [he]; decide))]
  rw [if_neg (show ¬ c = 'U' from fun he => h (by rw [he]; decide))]
  rw [if_neg (show ¬ c = 'V' from fun he => h (by rw [he]; decide))]
  rw [if_neg (show ¬ c = 'W' from fun he => h (by rw [he]; decide))]
  rw [if_neg (show ¬ c = 'X' from fun he => h (by rw [he]; decide))]
  rw [if_neg (show ¬ c = 'Y' from fun he => h (by rw [he]; decide))]
  rw [if_neg (show ¬ c = 'Z' from fun he => h (by rw [he]; decide))]

theorem pyLowerChar_idem_upper : ∀ c ∈ "ABCDEFGHIJKLMNOPQRSTUVWXYZ".data,
    pyLowerChar (pyLowerChar c) = pyLowerChar c := by decide

theorem isWS_pyLowerChar_upper : ∀ c ∈ "ABCDEFGHIJKLMNOPQRSTUVWXYZ".data,
    isWS (pyLowerChar c) = isWS c := by decide

theorem pyLowerChar_idem (c : Char) :
    pyLowerChar (pyLowerChar c) = pyLowerChar c := by
  by_cases h : c ∈ "ABCDEFGHIJKLMNOPQRSTUVWXYZ".data
  · exact pyLowerChar_idem_upper c h
  · rw [pyLowerChar_eq_self_of_not_upper c h, pyLowerChar_eq_self_of_not_upper c h]

theorem isWS_pyLowerChar (c : Char) : isWS (pyLowerChar c) = isWS c := by
  by_cases h : c ∈ "ABCDEFGHIJKLMNOPQRSTUVWXYZ".data
  · exact isWS_pyLowerChar_upper c h
  · rw [pyLowerChar_eq_self_of_not_upper c h]

theorem pyLower_idem (s : List Char) : pyLower (pyLower s) = pyLower s := by
  unfold pyLower
  rw [List.map_map]
  exact List.map_congr_left (fun c _ => pyLowerChar_idem c)

theorem isWS_comp_pyLowerChar : (isWS ∘ pyLowerChar) = isWS :=
  funext isWS_pyLowerChar

theorem dropWhile_pyLower (l : List Char) :
    (pyLower l).dropWhile isWS = pyLower (l.dropWhile isWS) := by
  unfold pyLower
  rw [List.dropWhile_map, isWS_comp_pyLowerChar]

theorem trimEnd_pyLower (s : List Char) :
    trimEnd (pyLower s) = pyLower (trimEnd s) := by
  unfold trimEnd pyLower
  rw [← List.map_reverse, List.dropWhile_map, isWS_comp_pyLowerChar,
    ← List.map_reverse]

theorem pyStrip_pyLower (s : List Char) :
    pyStrip (pyLower s) = pyLower (pyStrip s) := by
  unfold pyStrip
  rw [trimEnd_pyLower, dropWhile_pyLower]

theorem validateProvider_known (p : List Char) :
    validateProvider p = "openai".data ∨ validateProvider p = "gemini".data := by
  unfold validateProvider
  by_cases h1 : p = "openai".data
  · left
    simp [h1]
  · by_cases h2 : p = "gemini".data
    · right
      simp [h1, h2]
    · left
      simp [h1, h2]

end ConfigLemmas

section ConfigClaims

/-- C9: the provider identifier is normalised case-insensitively at
construction time and any unknown value falls back to openai, so the
constructed configuration always carries one of the two known
identifiers, the per-call dispatch always resolves (the `Unsupported AI
provider` branch is unreachable), and the validated model identifiers
always lie in the per-provider allow-lists. -/
theorem provider_validation :
    (∀ env : Option (List Char),
        aiProvider env = "openai".data ∨ aiProvider env = "gemini".data) ∧
      (∀ env : Option (List Char),
        (providerBranch (aiProvider env)).isSome = true) ∧
      (∀ s : List Char, aiProvider (some (pyLower s)) = aiProvider (some s)) ∧
      (∀ env : Option (List Char), openaiModel env ∈ validOpenaiModels) ∧
      (∀ env : Option (List Char), geminiModel env ∈ validGeminiModels) := by
  refine ⟨fun env => validateProvider_known _, ?_, ?_, ?_, ?_⟩
  · intro env
    rcases validateProvider_known (aiProviderInit env) with h | h <;>
      · unfold aiProvider
        rw [h]
        decide
  · intro s
    unfold aiProvider aiProviderInit
    by_cases hs : s = []
    · subst hs
      rfl
    · have hls : ¬ pyLower s = [] := by
        simpa [pyLower] using hs
      show validateProvider
          (pyLower (pyStrip (if pyLower s = [] then "openai".data else pyLower s))) =
        validateProvider (pyLower (pyStrip (if s = [] then "openai".data else s)))
      rw [if_neg hs, if_neg hls, pyStrip_pyLower, pyLower_idem]
  · intro env
    unfold openaiModel
    cases env with
    | none => decide
    | some s =>
      by_cases h : s ∈ validOpenaiModels
      · rw [if_pos h]
        exact h
      · rw [if_neg h]
        decide
  · intro env
    unfold geminiModel
    cases env with
    | none => decide
    | some s =>
      by_cases h : s ∈ validGeminiModels
      · rw [if_pos h]
        exact h
      · rw [if_neg h]
        decide

end ConfigClaims

end ChatBot
